import Mathlib

/-!
Formal model of the SVGD (Stein Variational Gradient Descent) implementation
consisting of `numpyro/stein/stein.py` (class `SVGD`) and
`numpyro_stein/util.py` (`ravel_pytree` and friends).

The embedding is shallow: jax arrays of rationals stand for numeric tensors
(row-major data lists plus a shape), jax's automatic differentiation is an
abstract gradient operator where a claim only depends on how gradients are
combined, fallible Python operations (tuple unpacking, slicing checks,
`None` field access) return `Except`, and `jax.random` keys are modelled as
derivation paths so that distinctness of split keys is expressible.
-/

namespace Stein

/-! ## Stein force computation (`SVGD._svgd_loss_and_grads`, lines 71-75)

A monolithic particle vector is an element of `Fin d → ℚ`.  The kernel
factory `log_kernel_fn` receives the full particle matrix and returns a
two-argument kernel; `gradOp` is the abstract gradient operator standing
for `jax.grad` applied to the kernel with its first argument pinned. -/

/-- A monolithic particle vector: one particle's guide parameters flattened
into a single vector of length `d`. -/
abbrev Vec (d : ℕ) := Fin d → ℚ

/-- Line 73 of `stein.py`: for particle `i`, sum over all particles `j` of
the kernel value at `(x_i, x_j)` times particle `i`'s own score vector. -/
def attractiveForce (n d : ℕ) (k : Vec d → Vec d → ℚ)
    (X : Fin n → Vec d) (score : Fin n → Vec d) (i : Fin n) : Vec d :=
  ∑ j : Fin n, k (X i) (X j) • score i

/-- Line 74 of `stein.py`: for particle `i`, sum over all particles `j` of
the gradient (with respect to the second kernel argument, the first pinned
to `x_i`) evaluated at `x_j`. -/
def repulsiveForce (n d : ℕ) (gradOp : (Vec d → ℚ) → Vec d → Vec d)
    (k : Vec d → Vec d → ℚ) (X : Fin n → Vec d) (i : Fin n) : Vec d :=
  ∑ j : Fin n, gradOp (k (X i)) (X j)

/-- Lines 71 and 75 of `stein.py`: the kernel is built from the full
particle matrix by the kernel factory, and the per-particle force is the
sum of the attractive and the repulsive term. -/
def particleGrads (n d : ℕ) (gradOp : (Vec d → ℚ) → Vec d → Vec d)
    (logKernelFn : (Fin n → Vec d) → Vec d → Vec d → ℚ)
    (X : Fin n → Vec d) (score : Fin n → Vec d) (i : Fin n) : Vec d :=
  attractiveForce n d (logKernelFn X) X score i
    + repulsiveForce n d gradOp (logKernelFn X) X i

/-- C1: for every batch of `num_stein_particles` monolithic particle
vectors, with `k` the kernel returned by the kernel factory on the full
particle matrix and `score i` the gradient of particle `i`'s log-joint
with respect to its own monolithic vector, the per-particle force computed
by `_svgd_loss_and_grads` equals the attractive term `score_i` scaled by
`Σ_j k(x_i, x_j)` (the sum including `j = i`) plus the repulsive term
`Σ_j ∇_y k(x_i, y)|_{y = x_j}`. -/
theorem svgd_force_decomposition (n d : ℕ)
    (gradOp : (Vec d → ℚ) → Vec d → Vec d)
    (logKernelFn : (Fin n → Vec d) → Vec d → Vec d → ℚ)
    (X : Fin n → Vec d) (score : Fin n → Vec d) (i : Fin n) :
    particleGrads n d gradOp logKernelFn X score i =
      (∑ j : Fin n, logKernelFn X (X i) (X j)) • score i
        + ∑ j : Fin n, gradOp (logKernelFn X (X i)) (X j) := by
  unfold particleGrads attractiveForce repulsiveForce
  rw [Finset.sum_smul]

/-! ## Shape of the loss (`SVGD._svgd_loss_and_grads`, lines 66-68)

`log_joint_prob` returns a scalar (rank-0) value in both of its branches
(a single log-density, or `np.mean` of several).  `jfp_fn` wraps it in
`jax.vmap` over the `num_stein_particles` particles, so its output is a
rank-1 array of shape `[num_stein_particles]`.  `jax.value_and_grad` (and
`jax.grad`) require a scalar-output function and raise `TypeError`
otherwise; we model that check on the shape level. -/

/-- Model of `jax.vmap`: prepends the mapped batch axis to the output shape. -/
def vmapOutShape (batchSize : ℕ) (innerShape : List ℕ) : List ℕ :=
  batchSize :: innerShape

/-- Output shape of `log_joint_prob` (lines 50-65): a scalar in both the
single-draw branch and the `np.mean` branch. -/
def logJointProbShape : List ℕ := []

/-- Output shape of `jfp_fn` (line 66): `log_joint_prob` vmapped over the
`num_stein_particles` particles. -/
def jfpOutShape (numSteinParticles : ℕ) : List ℕ :=
  vmapOutShape numSteinParticles logJointProbShape

/-- The scalar-output requirement `jax.value_and_grad` imposes on the
function it differentiates (shape `[]` means rank 0). -/
def valueAndGradScalarCheck (outShape : List ℕ) : Except String Unit :=
  if outShape = [] then Except.ok ()
  else Except.error "Gradient only defined for scalar-output functions"

/-- Line 68 of `stein.py`: `jax.value_and_grad` applied to `jfp_fn`'s
output for `num_stein_particles` particles. -/
def svgdLossScalarCheck (numSteinParticles : ℕ) : Except String Unit :=
  valueAndGradScalarCheck (jfpOutShape numSteinParticles)

/-- C2 (code bug): for every particle count, the function handed to
`jax.value_and_grad` at line 68 returns a rank-1 array of shape
`[num_stein_particles]` rather than a scalar, so the differentiation (and
with it the claimed scalar mean log-joint loss) fails the scalar-output
check instead of producing the negated mean. -/
theorem svgd_loss_never_scalar_mean (n : ℕ) :
    svgdLossScalarCheck n =
      Except.error "Gradient only defined for scalar-output functions" := by
  simp [svgdLossScalarCheck, valueAndGradScalarCheck, jfpOutShape,
    vmapOutShape, logJointProbShape]

/-! ## Random-key derivation in `SVGD.init` (lines 92 and 97)

`jax.random.split` is modelled as deriving child keys labelled by their
index under the parent key's path, which captures exactly the property the
spec relies on: children of one split are pairwise distinct and the
derivation is deterministic.  Python tuple unpacking of the resulting key
array is modelled by `Except`-valued unpacking functions. -/

/-- A PRNG key, identified by its derivation path from the root key. -/
abbrev PRNGKey := List ℕ

/-- Model of `jax.random.split key n`: an array of `n` fresh child keys. -/
def jaxRandomSplit (k : PRNGKey) (n : ℕ) : List PRNGKey :=
  (List.range n).map (fun i => k ++ [i])

/-- Python unpacking `a, b = xs` of a key array: succeeds exactly when the
array has two rows, otherwise raises `ValueError`. -/
def unpackTwo (l : List PRNGKey) : Except String (PRNGKey × PRNGKey) :=
  match l with
  | [a, b] => Except.ok (a, b)
  | _ => Except.error "ValueError: wrong number of values to unpack"

/-- Python unpacking `a, b, c = xs` of a key array. -/
def unpackThree (l : List PRNGKey) :
    Except String (PRNGKey × PRNGKey × PRNGKey) :=
  match l with
  | [a, b, c] => Except.ok (a, b, c)
  | _ => Except.error "ValueError: wrong number of values to unpack"

/-- Key derivation performed by `SVGD.init`: line 92 unpacks
`jax.random.split(rng_key, 3)` into carried key, model seed and guide
seed; line 97 unpacks `jax.random.split(rng_key, 1 + num_stein_particles)`
into a carried key and the particle seeds (two names).  Returns
`(carried key, model seed, guide seed, particle seeds)`. -/
def initKeyDerivation (rngKey : PRNGKey) (numSteinParticles : ℕ) :
    Except String (PRNGKey × PRNGKey × PRNGKey × PRNGKey) := do
  let (rk, ms, gs) ← unpackThree (jaxRandomSplit rngKey 3)
  let (rk2, ps) ← unpackTwo (jaxRandomSplit rk (1 + numSteinParticles))
  pure (rk2, ms, gs, ps)

/-- C6 (code bug): with the default `num_stein_particles = 10`, line 97
unpacks the 11-row key array returned by
`jax.random.split(rng_key, 1 + num_stein_particles)` into just two names,
which raises `ValueError` for every input key, so `init` never produces
one seed key per particle. -/
theorem init_key_derivation_fails (k : PRNGKey) :
    initKeyDerivation k 10 =
      Except.error "ValueError: wrong number of values to unpack" := by
  rfl

/-! ## Parameter-site classification in `SVGD.init` (lines 99-112)

`init` walks all sites of the model trace followed by the guide trace;
for each `param` site whose name is not a key of the model trace it calls
`guide_param_names.update(site['name'])`.  Python's `set.update` iterates
its argument, so updating with a string inserts the individual characters
of the name, not the name itself.  Names are modelled as `List Char` and
the set as a list of inserted elements (membership is all that is ever
used, so duplicates are irrelevant). -/

/-- A site name: a Python string, as its list of characters. -/
abbrev SiteName := List Char

/-- One entry of a trace: its name and whether `site['type'] == 'param'`. -/
structure TraceSite where
  name : SiteName
  isParam : Bool
  deriving DecidableEq

/-- Python `s.update(name)` on a set of strings where `name` is itself a
string: every character of `name` is inserted as a one-character string. -/
def pySetUpdateStr (s : List SiteName) (name : SiteName) : List SiteName :=
  s ++ name.map (fun c => [c])

/-- Lines 99-111 of `stein.py`: fold over `model_trace` then `guide_trace`
sites, and for each `param` site absent from the model trace perform
`guide_param_names.update(site['name'])`. -/
def computeGuideParamNames (modelTrace guideTrace : List TraceSite) :
    List SiteName :=
  ((modelTrace ++ guideTrace).filter (fun s => s.isParam)).foldl
    (fun acc site =>
      if site.name ∈ modelTrace.map TraceSite.name then acc
      else pySetUpdateStr acc site.name)
    []

/-- Lines 45-46 of `stein.py`: a parameter is treated as particle-owned
(guide-owned) exactly when its name is a member of `guide_param_names`. -/
def classifiedParticleOwned (guideParamNames : List SiteName)
    (p : SiteName) : Bool :=
  decide (p ∈ guideParamNames)

/-- C4 (code bug): a guide-introduced `param` site named `"loc"` that does
not appear in the model trace ends up with the characters `"l"`, `"o"`,
`"c"` in `guide_param_names` (Python `set.update` iterates the string)
instead of the name `"loc"`, so `_svgd_loss_and_grads` classifies it as
model-owned even though it is absent from the model trace, contradicting
the claimed partition rule. -/
theorem guide_param_classification_bug :
    computeGuideParamNames []
        [TraceSite.mk ['l', 'o', 'c'] true] = [['l'], ['o'], ['c']]
      ∧ classifiedParticleOwned
          (computeGuideParamNames [] [TraceSite.mk ['l', 'o', 'c'] true])
          ['l', 'o', 'c'] = false
      ∧ (['l', 'o', 'c'] : SiteName) ∉
          ([] : List TraceSite).map TraceSite.name := by
  decide

/-! ## Key discipline of the parameter split and gradient merge
(`SVGD._svgd_loss_and_grads`, lines 44-46 and 77-79)

Lines 45-46 split the unconstrained parameter dictionary into the
model-owned part (keys not in `guide_param_names`) and the guide-owned
part (keys in `guide_param_names`).  Line 69 differentiates with respect
to `model_uparams`, which under jax returns a dictionary with exactly the
keys of `model_uparams`; line 77 unravels the particle forces back into a
dictionary with exactly the keys of `guide_uparams`; line 79 merges the
two.  Dictionaries are modelled as association lists. -/

/-- Line 45: `{p: v for p, v in unconstr_params.items() if p not in self.guide_param_names}`. -/
def modelUParams {V : Type} (gpn : List SiteName)
    (ps : List (SiteName × V)) : List (SiteName × V) :=
  ps.filter (fun p => decide (p.1 ∉ gpn))

/-- Line 46: `{p: v for p, v in unconstr_params.items() if p in self.guide_param_names}`. -/
def guideUParams {V : Type} (gpn : List SiteName)
    (ps : List (SiteName × V)) : List (SiteName × V) :=
  ps.filter (fun p => decide (p.1 ∈ gpn))

/-- Key set of the merged gradient dictionary of line 79:
`jax.grad` (line 69) yields the keys of `model_uparams` and
`unravel_pytree` (line 77) yields the keys of `guide_uparams`. -/
def resGradKeys {V : Type} (gpn : List SiteName)
    (ps : List (SiteName × V)) : List SiteName :=
  (modelUParams gpn ps).map Prod.fst ++ (guideUParams gpn ps).map Prod.fst

/-- C9: the model-owned and guide-owned dictionaries form an exact two-way
partition of the input dictionary's keys (every key lands in exactly one
of the two), and the merged gradient dictionary has exactly the key set of
the input parameter dictionary, each key exactly once (given that the
input dictionary, being a dictionary, has no duplicate keys). -/
theorem svgd_param_split_partition {V : Type} (gpn : List SiteName)
    (ps : List (SiteName × V)) (hnodup : (ps.map Prod.fst).Nodup) :
    (resGradKeys gpn ps).Perm (ps.map Prod.fst)
      ∧ (∀ x, ¬(x ∈ (modelUParams gpn ps).map Prod.fst
          ∧ x ∈ (guideUParams gpn ps).map Prod.fst))
      ∧ (resGradKeys gpn ps).Nodup := by
  have hperm : (resGradKeys gpn ps).Perm (ps.map Prod.fst) := by
    unfold resGradKeys modelUParams guideUParams
    rw [← List.map_append]
    refine List.Perm.map Prod.fst ?_
    have h := List.filter_append_perm (fun p => decide (p.1 ∉ gpn)) ps
    refine List.Perm.trans ?_ h
    refine List.Perm.append_left _ ?_
    have : ∀ p : SiteName × V,
        (decide (p.1 ∈ gpn)) = !(decide (p.1 ∉ gpn)) := by
      intro p
      by_cases hp : p.1 ∈ gpn <;> simp [hp]
    rw [List.filter_congr (fun p _ => this p)]
  refine ⟨hperm, ?_, hperm.nodup_iff.mpr hnodup⟩
  intro x hx
  rcases hx with ⟨hm, hg⟩
  rcases List.mem_map.mp hm with ⟨pm, hpm, hpmx⟩
  rcases List.mem_map.mp hg with ⟨pg, hpg, hpgx⟩
  have h1 := List.of_mem_filter hpm
  have h2 := List.of_mem_filter hpg
  rw [hpmx] at h1
  rw [hpgx] at h2
  simp only [decide_eq_true_eq] at h1 h2
  exact h1 h2

/-- Witness for C9 at a concrete input: two parameter sites with distinct
names, the second guide-owned. -/
theorem svgd_param_split_partition_witness :
    (([((['a'] : SiteName), (0 : ℚ)), (['b'], 1)].map Prod.fst).Nodup)
      ∧ ((resGradKeys [['b']] [((['a'] : SiteName), (0 : ℚ)), (['b'], 1)]).Perm
            ([((['a'] : SiteName), (0 : ℚ)), (['b'], 1)].map Prod.fst)
          ∧ (∀ x, ¬(x ∈ (modelUParams [['b']]
                [((['a'] : SiteName), (0 : ℚ)), (['b'], 1)]).map Prod.fst
              ∧ x ∈ (guideUParams [['b']]
                [((['a'] : SiteName), (0 : ℚ)), (['b'], 1)]).map Prod.fst))
          ∧ (resGradKeys [['b']]
              [((['a'] : SiteName), (0 : ℚ)), (['b'], 1)]).Nodup) :=
  ⟨by decide, svgd_param_split_partition [['b']]
    [((['a'] : SiteName), (0 : ℚ)), (['b'], 1)] (by decide)⟩

/-! ## The step orchestrator (`SVGD.__init__` / `get_params` / `update` /
`evaluate`, lines 31-41 and 116-156)

The orchestrator is modelled over abstract collaborator types: `P` for
parameter dictionaries, `O` for optimizer states, `K` for PRNG keys, `G`
for gradient dictionaries and `L` for loss values.  The body of
`_svgd_loss_and_grads` past the two `self` field accesses is abstracted as
`lossBody` (it is a pure function of the site-name set, the constrain
function, the step key and the parameters).  The two object fields that
`__init__` leaves as `None` are `Option`-valued; Python's `TypeError` on
using `None` is an `Except.error`. -/

/-- Discriminator for `Except` results: `true` exactly on `error`. -/
def isErr {ε α : Type} (e : Except ε α) : Bool :=
  match e with
  | Except.error _ => true
  | Except.ok _ => false

/-- The carried SVGD state: optimizer state plus random-key cursor. -/
structure SVGDState (O K : Type) where
  optim_state : O
  rng_key : K

/-- The `SVGD` object: external collaborators plus the two fields
(`guide_param_names`, `constrain_fn`) that are `None` until `init` runs. -/
structure SVGDObj (P O K G L : Type) where
  optimGetParams : O → P
  optimUpdate : G → O → O
  randomSplit : K → K × K
  lossBody : List SiteName → (P → P) → K → P → L × G
  guide_param_names : Option (List SiteName)
  constrain_fn : Option (P → P)

/-- Constructor `SVGD.__init__` (lines 31-41): store the collaborators and set
`guide_param_names` and `constrain_fn` to `None`. -/
def mkSVGD {P O K G L : Type} (og : O → P) (ou : G → O → O)
    (sp : K → K × K) (lb : List SiteName → (P → P) → K → P → L × G) :
    SVGDObj P O K G L :=
  ⟨og, ou, sp, lb, none, none⟩

/-- Lines 112-113 of `stein.py`: `init` stores the computed site-name set
and the constrain function on the object (the only writes to these
fields). -/
def initEstablishFields {P O K G L : Type} (o : SVGDObj P O K G L)
    (gpn : List SiteName) (cf : P → P) : SVGDObj P O K G L :=
  ⟨o.optimGetParams, o.optimUpdate, o.randomSplit, o.lossBody,
    some gpn, some cf⟩

/-- Method `SVGD._svgd_loss_and_grads` as seen from the orchestrator: lines 45-46
iterate over `self.guide_param_names` (a `TypeError` if it is still
`None`), line 68 calls `self.constrain_fn` (a `TypeError` if `None`), and
the rest is the pure `lossBody`. -/
def svgdLossAndGrads {P O K G L : Type} (o : SVGDObj P O K G L)
    (rngKey : K) (uparams : P) : Except String (L × G) :=
  match o.guide_param_names with
  | none => Except.error "TypeError: argument of type NoneType is not iterable"
  | some gpn =>
    match o.constrain_fn with
    | none => Except.error "TypeError: NoneType object is not callable"
    | some cf => Except.ok (o.lossBody gpn cf rngKey uparams)

/-- Method `SVGD.get_params` (lines 116-122): apply `self.constrain_fn` to the
optimizer's current unconstrained parameters. -/
def getParams {P O K G L : Type} (o : SVGDObj P O K G L)
    (s : SVGDState O K) : Except String P :=
  match o.constrain_fn with
  | none => Except.error "TypeError: NoneType object is not callable"
  | some cf => Except.ok (cf (o.optimGetParams s.optim_state))

/-- Method `SVGD.update` (lines 124-140): split the carried key (first child is
carried forward, second is the step key), fetch the raw unconstrained
parameters from the optimizer state, run the force calculator, apply the
optimizer update, and return the new state with the loss. -/
def update {P O K G L : Type} (o : SVGDObj P O K G L) (s : SVGDState O K) :
    Except String (SVGDState O K × L) :=
  match svgdLossAndGrads o (o.randomSplit s.rng_key).2
      (o.optimGetParams s.optim_state) with
  | Except.error e => Except.error e
  | Except.ok (lossVal, grads) =>
      Except.ok
        (SVGDState.mk (o.optimUpdate grads s.optim_state)
          (o.randomSplit s.rng_key).1, lossVal)

/-- Method `SVGD.evaluate` (lines 142-156): split the carried key identically to
`update` and take the same second child, but fetch the parameters through
`self.get_params` — which applies `constrain_fn` — before running the
force calculator read-only. -/
def evaluate {P O K G L : Type} (o : SVGDObj P O K G L)
    (s : SVGDState O K) : Except String L :=
  match getParams o s with
  | Except.error e => Except.error e
  | Except.ok params =>
      match svgdLossAndGrads o (o.randomSplit s.rng_key).2 params with
      | Except.error e => Except.error e
      | Except.ok (lossVal, _) => Except.ok lossVal

/-- A concrete initialized `SVGD` object exhibiting the
`evaluate`-vs-`update` parameter discrepancy: parameters, optimizer
states, gradients and losses are rationals, keys are naturals, the
constrain function adds one, and the loss body constrains its parameters
(as line 68 of the source does) and reports the result. -/
def cexObj : SVGDObj ℚ ℚ ℕ ℚ ℚ :=
  ⟨fun o => o, fun _ o => o, fun k => (k, k),
    fun _ cf _ p => (cf p, cf p), some [], some (fun p => p + 1)⟩

/-- The state used by the concrete counterexample. -/
def cexState : SVGDState ℚ ℕ := SVGDState.mk 0 0

/-- C3 counterexample: on the same state, `update` feeds the raw
unconstrained parameters (value `0`) to the force calculator, which
constrains them once (loss `1`), while `evaluate` feeds the already
constrained `get_params` result (value `1`), which gets constrained a
second time (loss `2`); the two losses differ. -/
theorem evaluate_update_loss_differ :
    Stein.evaluate cexObj cexState = Except.ok 2
      ∧ (Stein.update cexObj cexState).map Prod.snd = Except.ok 1
      ∧ (2 : ℚ) ≠ 1 := by
  refine ⟨?_, ?_, by norm_num⟩
  · show Except.ok ((0 : ℚ) + 1 + 1) = Except.ok 2
    norm_num
  · show Except.ok ((0 : ℚ) + 1) = Except.ok 1
    norm_num

/-- C3 amended: `evaluate` derives its step key by splitting the state's
key exactly as `update` does (both use the second child), but passes the
constrained `get_params` value where `update` passes the raw unconstrained
parameters; consequently the two losses agree whenever the constrain
function leaves the current unconstrained parameters fixed (e.g. all
transforms are the identity). -/
theorem evaluate_matches_update_on_fixed_params {P O K G L : Type}
    (o : SVGDObj P O K G L) (s : SVGDState O K)
    (gpn : List SiteName) (cf : P → P)
    (hg : o.guide_param_names = some gpn)
    (hc : o.constrain_fn = some cf)
    (hfix : cf (o.optimGetParams s.optim_state)
      = o.optimGetParams s.optim_state) :
    Stein.evaluate o s = (Stein.update o s).map Prod.snd := by
  simp [Stein.evaluate, Stein.update, getParams, svgdLossAndGrads,
    Except.map, hg, hc, hfix]

/-- Witness for the amended C3 at a concrete input: an initialized object
whose constrain function is the identity. -/
theorem evaluate_matches_update_on_fixed_params_witness :
    ((SVGDObj.mk (fun (o : ℚ) => o) (fun (_ : ℚ) o => o)
        (fun (k : ℕ) => (k, k)) (fun _ cf _ p => (cf p, cf p))
        (some []) (some (fun p => p))).guide_param_names = some []
      ∧ (SVGDObj.mk (fun (o : ℚ) => o) (fun (_ : ℚ) o => o)
          (fun (k : ℕ) => (k, k)) (fun _ cf _ p => (cf p, cf p))
          (some []) (some (fun p => p))).constrain_fn
        = some (fun p => p)
      ∧ (fun (p : ℚ) => p) 0 = 0)
      ∧ Stein.evaluate (SVGDObj.mk (fun (o : ℚ) => o) (fun (_ : ℚ) o => o)
          (fun (k : ℕ) => (k, k)) (fun _ cf _ p => (cf p, cf p))
          (some []) (some (fun p => p))) (SVGDState.mk 0 0)
        = (Stein.update (SVGDObj.mk (fun (o : ℚ) => o) (fun (_ : ℚ) o => o)
            (fun (k : ℕ) => (k, k)) (fun _ cf _ p => (cf p, cf p))
            (some []) (some (fun p => p))) (SVGDState.mk 0 0)).map
              Prod.snd :=
  ⟨⟨rfl, rfl, rfl⟩,
    evaluate_matches_update_on_fixed_params _ _ [] (fun p => p)
      rfl rfl rfl⟩

/-- C8: `update` is a deterministic pure function of the object and the
state — two calls on identical inputs yield identical
`(new_state, loss)` results (all randomness is threaded explicitly
through `state.rng_key`; the embedding has no hidden state). -/
theorem update_deterministic {P O K G L : Type} (o : SVGDObj P O K G L)
    (s₁ s₂ : SVGDState O K) (h : s₁ = s₂) :
    Stein.update o s₁ = Stein.update o s₂ := by
  rw [h]

/-- Witness for C8 at a concrete input. -/
theorem update_deterministic_witness :
    cexState = cexState
      ∧ Stein.update cexObj cexState = Stein.update cexObj cexState :=
  ⟨rfl, update_deterministic cexObj cexState cexState rfl⟩

/-- C10: a freshly constructed `SVGD` object has `guide_param_names` and
`constrain_fn` equal to `None`, and in that state `get_params`, `update`
and `evaluate` all fail with a `TypeError` instead of returning a result;
`init` (lines 112-113) is the operation that establishes the two fields. -/
theorem uninitialized_operations_fail {P O K G L : Type}
    (og : O → P) (ou : G → O → O) (sp : K → K × K)
    (lb : List SiteName → (P → P) → K → P → L × G)
    (gpn : List SiteName) (cf : P → P) (s : SVGDState O K) :
    (mkSVGD og ou sp lb).guide_param_names = none
      ∧ (mkSVGD og ou sp lb).constrain_fn = none
      ∧ isErr (getParams (mkSVGD og ou sp lb) s) = true
      ∧ isErr (Stein.update (mkSVGD og ou sp lb) s) = true
      ∧ isErr (Stein.evaluate (mkSVGD og ou sp lb) s) = true
      ∧ (initEstablishFields (mkSVGD og ou sp lb) gpn cf).guide_param_names
        = some gpn
      ∧ (initEstablishFields (mkSVGD og ou sp lb) gpn cf).constrain_fn
        = some cf := by
  refine ⟨rfl, rfl, rfl, rfl, rfl, rfl, rfl⟩

/-! ## The vector raveler (`numpyro_stein/util.py`, lines 13-46)

Arrays are modelled row-major: a `Tensor` is a shape, a dtype tag and the
flat list of its entries (rationals; `astype` casts are value-preserving
in this model, numeric rounding of casts being outside its scope).  For
an array of shape `batchShape ++ eventShape` the row-major data is
`batchShape.prod` contiguous blocks of `eventShape.prod` entries, which
is what `np.reshape(l, (*shape[:batch_dims], -1))`,
`np.concatenate(..., axis=-1)` and `lax.dynamic_slice_in_dim` operate
on.  `canonicalize_dtype` is an abstract map `canon` on dtype tags (jax
arrays already carry canonical dtypes, which the round-trip hypotheses
record as `canon d = d`). -/

/-- A jax array: shape, dtype tag, and row-major data. -/
structure Tensor where
  shape : List ℕ
  dtype : ℕ
  data : List ℚ
  deriving DecidableEq

/-- Contiguous slice of row-major data: `drop` then `take`. -/
def slice (start len : ℕ) (l : List ℚ) : List ℚ :=
  (l.drop start).take len

/-- Record `pytree_metadata` (line 13 and lines 17-19 of `util.py`): the leaf
reshaped to `(*shape[:batch_dims], -1)` (row-major data unchanged), its
full shape, its event size `np.prod(shape[batch_dims:])`, and its
canonicalized dtype. -/
structure Meta where
  flatData : List ℚ
  shape : List ℕ
  event_size : ℕ
  dtype : ℕ
  deriving DecidableEq

/-- Build the metadata of one leaf (lines 17-19 of `util.py`). -/
def pytreeMetadata (canon : ℕ → ℕ) (bd : ℕ) (l : Tensor) : Meta :=
  Meta.mk l.data l.shape ((l.shape.drop bd).prod) (canon l.dtype)

/-- Offsets `leaves_idx` (line 20): the cumulative sum of event sizes; entry `i`
is the offset of leaf `i` inside the concatenated vector. -/
def leavesIdx (ms : List Meta) (i : ℕ) : ℕ :=
  ((ms.take i).map Meta.event_size).sum

/-- Total flattened event size of all leaves (the last `leaves_idx`
entry). -/
def totalEventSize (ms : List Meta) : ℕ :=
  (ms.map Meta.event_size).sum

/-- Row-major semantics of `np.concatenate([m.flat for m in metadata],
axis=-1)` (line 32) on reshaped leaves of shape `batchShape ++
[event_size]`: batch block `b` of the result is the concatenation of the
leaves' batch blocks `b`. -/
def concatBlocks (B : ℕ) (ms : List Meta) : List ℚ :=
  ((List.range B).map
    (fun b => (ms.map
      (fun m => slice (b * m.event_size) m.event_size m.flatData)).flatten)).flatten

/-- Flat vector of `_ravel_list` (line 32): the concatenated leaves, or
`np.array([])` — a one-dimensional empty array of shape `(0,)` — when
there are no leaves.  The dtype of the concatenated buffer (numpy's
promotion of the leaf dtypes) is irrelevant downstream, since `unravel`
casts each segment back; it is tagged `0` here. -/
def ravelListFlat (canon : ℕ → ℕ) (bd : ℕ) (leaves : List Tensor) : Tensor :=
  match leaves with
  | [] => Tensor.mk [0] 0 []
  | l :: rest =>
    let ms := (l :: rest).map (pytreeMetadata canon bd)
    Tensor.mk (l.shape.take bd ++ [totalEventSize ms]) 0
      (concatBlocks (l.shape.take bd).prod ms)

/-- Model of `lax.dynamic_slice_in_dim(arr, start, len)` on a rank-1 array: fails
when the slice size exceeds the axis length, otherwise slices with the
start index clamped into `[0, length - len]` (jax clamps out-of-range
start indices instead of raising). -/
def dynamicSliceInDim0 (arr : List ℚ) (start len : ℕ) :
    Except String (List ℚ) :=
  if len ≤ arr.length then
    Except.ok (slice (min start (arr.length - len)) len arr)
  else Except.error "Slice size must be less than or equal to operand size"

/-- Model of `np.reshape(seg, sh).astype(dt)`: errors unless the element count
matches the target shape, then stamps the recorded dtype. -/
def reshapeAstype (sh : List ℕ) (dt : ℕ) (seg : List ℚ) :
    Except String Tensor :=
  if seg.length = sh.prod then Except.ok (Tensor.mk sh dt seg)
  else Except.error "cannot reshape array"

/-- Body of `unravel_list` (lines 22-25) from leaf `i` on, `idx` being
the cumulative offset `leaves_idx[i]`: dynamic-slice each segment out of
the rank-1 input, reshape it to the event shape `m.shape[batch_dims:]`
and cast it back to the recorded dtype. -/
def unravelListFrom (bd : ℕ) (arr : List ℚ) :
    ℕ → List Meta → Except String (List Tensor)
  | _, [] => Except.ok []
  | idx, m :: ms =>
    match dynamicSliceInDim0 arr idx m.event_size with
    | Except.error e => Except.error e
    | Except.ok seg =>
      match reshapeAstype (m.shape.drop bd) m.dtype seg with
      | Except.error e => Except.error e
      | Except.ok t =>
        match unravelListFrom bd arr (idx + m.event_size) ms with
        | Except.error e => Except.error e
        | Except.ok ts => Except.ok (t :: ts)

/-- Function `unravel_list` (lines 22-25): slice every leaf out of a rank-1 array
starting at offset `leaves_idx[0] = 0`. -/
def unravelList (bd : ℕ) (ms : List Meta) (arr : List ℚ) :
    Except String (List Tensor) :=
  unravelListFrom bd arr 0 ms

/-- Model of `lax.dynamic_slice_in_dim(arr, start, len, axis=batch_dims)` on an
array of shape `batchShape ++ [T]`, i.e. `B = batchShape.prod` batch
blocks of length `T`: fails when the slice size exceeds `T`, otherwise
slices every batch block at the clamped start index. -/
def dynamicSliceInDimAx (B T : ℕ) (arr : List ℚ) (start len : ℕ) :
    Except String (List ℚ) :=
  if len ≤ T then
    Except.ok (((List.range B).map
      (fun b => slice (b * T + min start (T - len)) len arr)).flatten)
  else Except.error "Slice size must be less than or equal to operand size"

/-- Body of `unravel_list_batched` (lines 27-30) from leaf `i` on:
dynamic-slice along axis `batch_dims`, reshape to the full recorded shape
and cast back. -/
def unravelListBatchedFrom (bd B T : ℕ) (arr : List ℚ) :
    ℕ → List Meta → Except String (List Tensor)
  | _, [] => Except.ok []
  | idx, m :: ms =>
    match dynamicSliceInDimAx B T arr idx m.event_size with
    | Except.error e => Except.error e
    | Except.ok seg =>
      match reshapeAstype m.shape m.dtype seg with
      | Except.error e => Except.error e
      | Except.ok t =>
        match unravelListBatchedFrom bd B T arr (idx + m.event_size) ms with
        | Except.error e => Except.error e
        | Except.ok ts => Except.ok (t :: ts)

/-- Function `unravel_list_batched` (lines 27-30): the batch-block count and the
sliced-axis length are read off the input array's shape. -/
def unravelListBatched (bd : ℕ) (ms : List Meta) (arr : Tensor) :
    Except String (List Tensor) :=
  unravelListBatchedFrom bd ((arr.shape.take bd).prod)
    (arr.shape.getD bd 0) arr.data 0 ms

/-- Function `ravel_pytree` (lines 36-38) applied to a named collection of
tensors: `tree_flatten` yields the leaves in the collection's fixed
order, and the flat vector is `_ravel_list` of those leaves. -/
def ravelPytreeFlat (canon : ℕ → ℕ) (bd : ℕ)
    (pt : List (String × Tensor)) : Tensor :=
  ravelListFlat canon bd (pt.map Prod.snd)

/-- Function `unravel_pytree` (lines 40-41): unravel the leaves and `tree_unflatten`
them back under the recorded names. -/
def unravelPytree (canon : ℕ → ℕ) (bd : ℕ) (pt : List (String × Tensor))
    (arr : List ℚ) : Except String (List (String × Tensor)) :=
  match unravelList bd ((pt.map Prod.snd).map (pytreeMetadata canon bd)) arr with
  | Except.error e => Except.error e
  | Except.ok ts => Except.ok ((pt.map Prod.fst).zip ts)

/-- Function `unravel_pytree_batched` (lines 43-44). -/
def unravelPytreeBatched (canon : ℕ → ℕ) (bd : ℕ)
    (pt : List (String × Tensor)) (arr : Tensor) :
    Except String (List (String × Tensor)) :=
  match unravelListBatched bd ((pt.map Prod.snd).map (pytreeMetadata canon bd)) arr with
  | Except.error e => Except.error e
  | Except.ok ts => Except.ok ((pt.map Prod.fst).zip ts)

/-- The restriction of one leaf to batch index `b`, batch axes stripped:
what the single-particle unravel variant is expected to recover. -/
def Tensor.batchSlice (bd b : ℕ) (t : Tensor) : Tensor :=
  Tensor.mk (t.shape.drop bd) t.dtype
    (slice (b * (t.shape.drop bd).prod) ((t.shape.drop bd).prod) t.data)

/-! ### Slicing lemmas used by the round-trip proof -/

theorem slice_length (s e : ℕ) (l : List ℚ) :
    (slice s e l).length = min e (l.length - s) := by
  simp [slice]

theorem slice_append_of_le (s e : ℕ) (l₁ l₂ : List ℚ)
    (h : s + e ≤ l₁.length) :
    slice s e (l₁ ++ l₂) = slice s e l₁ := by
  unfold slice
  rw [List.drop_append_of_le_length (by omega),
    List.take_append_of_le_length (by simp only [List.length_drop]; omega)]

theorem slice_append_add (l₁ l₂ : List ℚ) (s e : ℕ) :
    slice (l₁.length + s) e (l₁ ++ l₂) = slice s e l₂ := by
  unfold slice
  rw [List.drop_append]

theorem slice_all (l : List ℚ) (e : ℕ) (h : l.length = e) :
    slice 0 e l = l := by
  unfold slice
  rw [List.drop_zero, ← h, List.take_length]

theorem flatten_range_map_length (f : ℕ → List ℚ) (T : ℕ) :
    ∀ B, (∀ b, b < B → (f b).length = T) →
      (((List.range B).map f).flatten).length = B * T := by
  intro B
  induction B with
  | zero => intro _; simp
  | succ n ih =>
    intro h
    rw [List.range_succ, List.map_append, List.flatten_append]
    simp only [List.map_cons, List.map_nil, List.flatten_cons,
      List.flatten_nil, List.append_nil, List.length_append]
    rw [ih (fun b hb => h b (by omega)), h n (by omega)]
    ring

theorem slice_flatten_uniform (f : ℕ → List ℚ) (T : ℕ) :
    ∀ B, (∀ b, b < B → (f b).length = T) →
      ∀ b, b < B → ∀ s e, s + e ≤ T →
        slice (b * T + s) e (((List.range B).map f).flatten)
          = slice s e (f b) := by
  intro B
  induction B with
  | zero => intro _ b hb; exact absurd hb (Nat.not_lt_zero b)
  | succ n ih =>
    intro h b hb s e hse
    rw [List.range_succ, List.map_append, List.flatten_append]
    simp only [List.map_cons, List.map_nil, List.flatten_cons,
      List.flatten_nil, List.append_nil]
    by_cases hbn : b < n
    · rw [slice_append_of_le]
      · exact ih (fun c hc => h c (by omega)) b hbn s e hse
      · rw [flatten_range_map_length f T n (fun c hc => h c (by omega))]
        have h1 : b * T + s + e ≤ (b + 1) * T := by
          have : b * T + T = (b + 1) * T := by ring
          omega
        have h2 : (b + 1) * T ≤ n * T := Nat.mul_le_mul_right T (by omega)
        omega
    · have hb' : b = n := by omega
      subst hb'
      have hpl := flatten_range_map_length f T b (fun c hc => h c (by omega))
      have h2 := slice_append_add (((List.range b).map f).flatten) (f b) s e
      rw [hpl] at h2
      exact h2

theorem slice_flatten_metas (g : Meta → List ℚ) :
    ∀ (ms₁ : List Meta) (m : Meta) (ms₂ : List Meta),
      (∀ m' ∈ ms₁, (g m').length = m'.event_size) →
      (g m).length = m.event_size →
      slice ((ms₁.map Meta.event_size).sum) m.event_size
          (((ms₁ ++ m :: ms₂).map g).flatten) = g m := by
  intro ms₁
  induction ms₁ with
  | nil =>
    intro m ms₂ _ hm
    simp only [List.map_nil, List.sum_nil, List.nil_append, List.map_cons,
      List.flatten_cons]
    unfold slice
    rw [List.drop_zero, List.take_append_of_le_length (le_of_eq hm.symm),
      ← hm, List.take_length]
  | cons m1 ms₁ ih =>
    intro m ms₂ h hm
    simp only [List.map_cons, List.sum_cons, List.cons_append,
      List.flatten_cons]
    have h1 : (g m1).length = m1.event_size := h m1 (by simp)
    rw [← h1, slice_append_add]
    exact ih m ms₂ (fun m' hm' => h m' (by simp [hm'])) hm

theorem flatten_slices_take (data : List ℚ) (e : ℕ) :
    ∀ B, B * e ≤ data.length →
      ((List.range B).map (fun b => slice (b * e) e data)).flatten
        = data.take (B * e) := by
  intro B
  induction B with
  | zero => intro _; simp
  | succ n ih =>
    intro h
    rw [List.range_succ, List.map_append, List.flatten_append]
    simp only [List.map_cons, List.map_nil, List.flatten_cons,
      List.flatten_nil, List.append_nil]
    have hn : n * e ≤ data.length :=
      Nat.le_trans (Nat.mul_le_mul_right e (Nat.le_succ n)) h
    rw [ih hn]
    show data.take (n * e) ++ slice (n * e) e data = data.take ((n + 1) * e)
    unfold slice
    rw [show (n + 1) * e = n * e + e by ring, List.take_add]

theorem flatten_slices_all (data : List ℚ) (e B : ℕ)
    (h : data.length = B * e) :
    ((List.range B).map (fun b => slice (b * e) e data)).flatten = data := by
  rw [flatten_slices_take data e B (le_of_eq h.symm), ← h, List.take_length]

theorem zip_fst_map {α β γ : Type} (pt : List (α × β)) (f : α × β → γ) :
    (pt.map Prod.fst).zip (pt.map f) = pt.map (fun p => (p.1, f p)) := by
  induction pt with
  | nil => rfl
  | cons p pt ih => simp [ih]

theorem getD_concat_length (l : List ℕ) (x : ℕ) :
    (l ++ [x]).getD l.length 0 = x := by
  simp [List.getD]

/-! ### Facts about the leaf metadata under the well-formedness
hypotheses of the round trip: each leaf's row-major data splits into
`batchShape.prod` blocks of `event_size` entries. -/

theorem mul_block_le (b B e : ℕ) (hb : b < B) : b * e + e ≤ B * e := by
  have h1 : (b + 1) * e ≤ B * e := Nat.mul_le_mul_right _ (by omega)
  have h2 : (b + 1) * e = b * e + e := by ring
  rw [← h2]
  exact h1

theorem leaf_data_length (bd : ℕ) (batchShape : List ℕ) (l : Tensor)
    (hwf : l.data.length = l.shape.prod)
    (hbatch : l.shape.take bd = batchShape) :
    l.data.length = batchShape.prod * (l.shape.drop bd).prod := by
  rw [hwf, ← List.prod_take_mul_prod_drop l.shape bd, hbatch]

theorem leaf_block_length (bd b : ℕ) (batchShape : List ℕ) (l : Tensor)
    (hwf : l.data.length = l.shape.prod)
    (hbatch : l.shape.take bd = batchShape)
    (hb : b < batchShape.prod) :
    (slice (b * (l.shape.drop bd).prod) ((l.shape.drop bd).prod)
        l.data).length = (l.shape.drop bd).prod := by
  have hlen := leaf_data_length bd batchShape l hwf hbatch
  have key := mul_block_le b batchShape.prod ((l.shape.drop bd).prod) hb
  rw [slice_length, hlen]
  exact Nat.min_eq_left (Nat.le_sub_of_add_le' key)

theorem row_length (canon : ℕ → ℕ) (bd b : ℕ) (batchShape : List ℕ)
    (leaves : List Tensor)
    (hwf : ∀ l ∈ leaves, l.data.length = l.shape.prod)
    (hbatch : ∀ l ∈ leaves, l.shape.take bd = batchShape)
    (hb : b < batchShape.prod) :
    (((leaves.map (pytreeMetadata canon bd)).map
        (fun m => slice (b * m.event_size) m.event_size m.flatData)).flatten).length
      = totalEventSize (leaves.map (pytreeMetadata canon bd)) := by
  rw [List.length_flatten, List.map_map, List.map_map, totalEventSize,
    List.map_map]
  congr 1
  apply List.map_congr_left
  intro l hl
  exact leaf_block_length bd b batchShape l (hwf l hl) (hbatch l hl) hb

/-! ### The core slice computation: slicing leaf `l`'s segment out of the
concatenated matrix recovers exactly `l`'s row-major data. -/

theorem batched_segment_eq (canon : ℕ → ℕ) (bd : ℕ) (batchShape : List ℕ)
    (pre : List Tensor) (l : Tensor) (rest : List Tensor)
    (hwf : ∀ t ∈ pre ++ l :: rest, t.data.length = t.shape.prod)
    (hbatch : ∀ t ∈ pre ++ l :: rest, t.shape.take bd = batchShape) :
    ((List.range batchShape.prod).map
        (fun b => slice
          (b * totalEventSize ((pre ++ l :: rest).map (pytreeMetadata canon bd))
            + totalEventSize (pre.map (pytreeMetadata canon bd)))
          ((l.shape.drop bd).prod)
          (concatBlocks batchShape.prod
            ((pre ++ l :: rest).map (pytreeMetadata canon bd))))).flatten
      = l.data := by
  have hl : l ∈ pre ++ l :: rest := by simp
  have hT : totalEventSize ((pre ++ l :: rest).map (pytreeMetadata canon bd))
      = totalEventSize (pre.map (pytreeMetadata canon bd))
        + ((l.shape.drop bd).prod
          + totalEventSize (rest.map (pytreeMetadata canon bd))) := by
    simp [totalEventSize, List.map_append, List.sum_append, pytreeMetadata]
  have hidxe : totalEventSize (pre.map (pytreeMetadata canon bd))
      + (l.shape.drop bd).prod
      ≤ totalEventSize ((pre ++ l :: rest).map (pytreeMetadata canon bd)) := by
    omega
  have hstep : ∀ b ∈ List.range batchShape.prod,
      slice (b * totalEventSize ((pre ++ l :: rest).map (pytreeMetadata canon bd))
          + totalEventSize (pre.map (pytreeMetadata canon bd)))
        ((l.shape.drop bd).prod)
        (concatBlocks batchShape.prod
          ((pre ++ l :: rest).map (pytreeMetadata canon bd)))
      = slice (b * (l.shape.drop bd).prod) ((l.shape.drop bd).prod)
          l.data := by
    intro b hb
    rw [List.mem_range] at hb
    rw [concatBlocks,
      slice_flatten_uniform _
        (totalEventSize ((pre ++ l :: rest).map (pytreeMetadata canon bd)))
        batchShape.prod
        (fun c hc => row_length canon bd c batchShape _ hwf hbatch hc)
        b hb _ _ hidxe]
    have hms : (pre ++ l :: rest).map (pytreeMetadata canon bd)
        = pre.map (pytreeMetadata canon bd)
          ++ (pytreeMetadata canon bd l :: rest.map (pytreeMetadata canon bd)) := by
      simp
    rw [hms]
    exact slice_flatten_metas
      (fun m => slice (b * m.event_size) m.event_size m.flatData)
      (pre.map (pytreeMetadata canon bd)) (pytreeMetadata canon bd l)
      (rest.map (pytreeMetadata canon bd))
      (by
        intro m' hm'
        rcases List.mem_map.mp hm' with ⟨l', hl', rfl⟩
        exact leaf_block_length bd b batchShape l'
          (hwf l' (by simp [hl'])) (hbatch l' (by simp [hl'])) hb)
      (leaf_block_length bd b batchShape l (hwf l hl) (hbatch l hl) hb)
  rw [List.map_congr_left hstep]
  exact flatten_slices_all l.data ((l.shape.drop bd).prod) batchShape.prod
    (leaf_data_length bd batchShape l (hwf l hl) (hbatch l hl))

/-! ### One-step unfolding equations for the unravel recursions -/

theorem unravelListBatchedFrom_cons (bd B T : ℕ) (arr : List ℚ) (idx : ℕ)
    (m : Meta) (ms : List Meta) (seg : List ℚ) (t : Tensor)
    (hdyn : dynamicSliceInDimAx B T arr idx m.event_size = Except.ok seg)
    (hres : reshapeAstype m.shape m.dtype seg = Except.ok t) :
    unravelListBatchedFrom bd B T arr idx (m :: ms)
      = match unravelListBatchedFrom bd B T arr (idx + m.event_size) ms with
        | Except.error e => Except.error e
        | Except.ok ts => Except.ok (t :: ts) := by
  simp only [unravelListBatchedFrom, hdyn, hres]

theorem unravelListFrom_cons (bd : ℕ) (arr : List ℚ) (idx : ℕ)
    (m : Meta) (ms : List Meta) (seg : List ℚ) (t : Tensor)
    (hdyn : dynamicSliceInDim0 arr idx m.event_size = Except.ok seg)
    (hres : reshapeAstype (m.shape.drop bd) m.dtype seg = Except.ok t) :
    unravelListFrom bd arr idx (m :: ms)
      = match unravelListFrom bd arr (idx + m.event_size) ms with
        | Except.error e => Except.error e
        | Except.ok ts => Except.ok (t :: ts) := by
  simp only [unravelListFrom, hdyn, hres]

/-! ### The batched unravel inverts the ravel -/

theorem unravelBatchedFrom_ok (canon : ℕ → ℕ) (bd : ℕ)
    (batchShape : List ℕ) (full : List Tensor)
    (hwf : ∀ t ∈ full, t.data.length = t.shape.prod)
    (hbatch : ∀ t ∈ full, t.shape.take bd = batchShape)
    (hcanon : ∀ t ∈ full, canon t.dtype = t.dtype) :
    ∀ post pre, full = pre ++ post →
      unravelListBatchedFrom bd batchShape.prod
          (totalEventSize (full.map (pytreeMetadata canon bd)))
          (concatBlocks batchShape.prod (full.map (pytreeMetadata canon bd)))
          (totalEventSize (pre.map (pytreeMetadata canon bd)))
          (post.map (pytreeMetadata canon bd))
        = Except.ok post := by
  intro post
  induction post with
  | nil => intro pre h; rfl
  | cons l rest ih =>
    intro pre h
    subst h
    have hl : l ∈ pre ++ l :: rest := by simp
    have hT : totalEventSize ((pre ++ l :: rest).map (pytreeMetadata canon bd))
        = totalEventSize (pre.map (pytreeMetadata canon bd))
          + ((l.shape.drop bd).prod
            + totalEventSize (rest.map (pytreeMetadata canon bd))) := by
      simp [totalEventSize, List.map_append, List.sum_append, pytreeMetadata]
    have he : (l.shape.drop bd).prod
        ≤ totalEventSize ((pre ++ l :: rest).map (pytreeMetadata canon bd)) := by
      omega
    have hmin : min (totalEventSize (pre.map (pytreeMetadata canon bd)))
        (totalEventSize ((pre ++ l :: rest).map (pytreeMetadata canon bd))
          - (l.shape.drop bd).prod)
        = totalEventSize (pre.map (pytreeMetadata canon bd)) :=
      Nat.min_eq_left (by omega)
    have hdyn : dynamicSliceInDimAx batchShape.prod
        (totalEventSize ((pre ++ l :: rest).map (pytreeMetadata canon bd)))
        (concatBlocks batchShape.prod
          ((pre ++ l :: rest).map (pytreeMetadata canon bd)))
        (totalEventSize (pre.map (pytreeMetadata canon bd)))
        ((pytreeMetadata canon bd l).event_size)
        = Except.ok l.data := by
      show dynamicSliceInDimAx _ _ _ _ ((l.shape.drop bd).prod) = _
      unfold dynamicSliceInDimAx
      rw [if_pos he]
      congr 1
      simp only [hmin]
      exact batched_segment_eq canon bd batchShape pre l rest hwf hbatch
    have hres : reshapeAstype (pytreeMetadata canon bd l).shape
        (pytreeMetadata canon bd l).dtype l.data = Except.ok l := by
      show reshapeAstype l.shape (canon l.dtype) l.data = _
      unfold reshapeAstype
      rw [if_pos (hwf l hl), hcanon l hl]
    simp only [List.map_cons]
    rw [unravelListBatchedFrom_cons bd batchShape.prod _ _ _ _ _ _ _
      hdyn hres]
    have hidx' : totalEventSize (pre.map (pytreeMetadata canon bd))
        + (pytreeMetadata canon bd l).event_size
        = totalEventSize ((pre ++ [l]).map (pytreeMetadata canon bd)) := by
      simp [totalEventSize, pytreeMetadata, List.map_append,
        List.sum_append]
    rw [hidx', ih (pre ++ [l]) (by simp)]

/-! ### The single-particle unravel inverts the ravel on each batch row -/

theorem row_extract (canon : ℕ → ℕ) (bd : ℕ) (batchShape : List ℕ)
    (full : List Tensor)
    (hwf : ∀ t ∈ full, t.data.length = t.shape.prod)
    (hbatch : ∀ t ∈ full, t.shape.take bd = batchShape)
    (b : ℕ) (hb : b < batchShape.prod) :
    slice (b * totalEventSize (full.map (pytreeMetadata canon bd)))
        (totalEventSize (full.map (pytreeMetadata canon bd)))
        (concatBlocks batchShape.prod (full.map (pytreeMetadata canon bd)))
      = ((full.map (pytreeMetadata canon bd)).map
          (fun m => slice (b * m.event_size) m.event_size m.flatData)).flatten := by
  have hrows := fun c hc => row_length canon bd c batchShape full hwf hbatch hc
  have h := slice_flatten_uniform _
    (totalEventSize (full.map (pytreeMetadata canon bd)))
    batchShape.prod hrows b hb 0
    (totalEventSize (full.map (pytreeMetadata canon bd))) (by omega)
  rw [Nat.add_zero] at h
  rw [concatBlocks, h, slice_all _ _ (row_length canon bd b batchShape full hwf hbatch hb)]

theorem unravelFrom_ok (canon : ℕ → ℕ) (bd : ℕ) (batchShape : List ℕ)
    (full : List Tensor)
    (hwf : ∀ t ∈ full, t.data.length = t.shape.prod)
    (hbatch : ∀ t ∈ full, t.shape.take bd = batchShape)
    (hcanon : ∀ t ∈ full, canon t.dtype = t.dtype)
    (b : ℕ) (hb : b < batchShape.prod) :
    ∀ post pre, full = pre ++ post →
      unravelListFrom bd
          (((full.map (pytreeMetadata canon bd)).map
            (fun m => slice (b * m.event_size) m.event_size m.flatData)).flatten)
          (totalEventSize (pre.map (pytreeMetadata canon bd)))
          (post.map (pytreeMetadata canon bd))
        = Except.ok (post.map (Tensor.batchSlice bd b)) := by
  intro post
  induction post with
  | nil => intro pre h; rfl
  | cons l rest ih =>
    intro pre h
    subst h
    have hl : l ∈ pre ++ l :: rest := by simp
    have hrow := row_length canon bd b batchShape (pre ++ l :: rest) hwf hbatch hb
    have hT : totalEventSize ((pre ++ l :: rest).map (pytreeMetadata canon bd))
        = totalEventSize (pre.map (pytreeMetadata canon bd))
          + ((l.shape.drop bd).prod
            + totalEventSize (rest.map (pytreeMetadata canon bd))) := by
      simp [totalEventSize, List.map_append, List.sum_append, pytreeMetadata]
    have he : (l.shape.drop bd).prod
        ≤ totalEventSize ((pre ++ l :: rest).map (pytreeMetadata canon bd)) := by
      omega
    have hms : (pre ++ l :: rest).map (pytreeMetadata canon bd)
        = pre.map (pytreeMetadata canon bd)
          ++ (pytreeMetadata canon bd l :: rest.map (pytreeMetadata canon bd)) := by
      simp
    have hdyn : dynamicSliceInDim0
        (((((pre ++ l :: rest)).map (pytreeMetadata canon bd)).map
          (fun m => slice (b * m.event_size) m.event_size m.flatData)).flatten)
        (totalEventSize (pre.map (pytreeMetadata canon bd)))
        ((pytreeMetadata canon bd l).event_size)
        = Except.ok (slice (b * (l.shape.drop bd).prod)
            ((l.shape.drop bd).prod) l.data) := by
      show dynamicSliceInDim0 _ _ ((l.shape.drop bd).prod) = _
      unfold dynamicSliceInDim0
      rw [hrow, if_pos he, Nat.min_eq_left (by omega)]
      congr 1
      rw [hms]
      exact slice_flatten_metas
        (fun m => slice (b * m.event_size) m.event_size m.flatData)
        (pre.map (pytreeMetadata canon bd)) (pytreeMetadata canon bd l)
        (rest.map (pytreeMetadata canon bd))
        (by
          intro m' hm'
          rcases List.mem_map.mp hm' with ⟨l', hl', rfl⟩
          exact leaf_block_length bd b batchShape l'
            (hwf l' (by simp [hl'])) (hbatch l' (by simp [hl'])) hb)
        (leaf_block_length bd b batchShape l (hwf l hl) (hbatch l hl) hb)
    have hres : reshapeAstype ((pytreeMetadata canon bd l).shape.drop bd)
        (pytreeMetadata canon bd l).dtype
        (slice (b * (l.shape.drop bd).prod) ((l.shape.drop bd).prod) l.data)
        = Except.ok (l.batchSlice bd b) := by
      show reshapeAstype (l.shape.drop bd) (canon l.dtype) _ = _
      unfold reshapeAstype
      rw [if_pos (leaf_block_length bd b batchShape l (hwf l hl)
        (hbatch l hl) hb), hcanon l hl]
      rfl
    simp only [List.map_cons]
    rw [unravelListFrom_cons bd _ _ _ _ _ _ hdyn hres]
    have hidx' : totalEventSize (pre.map (pytreeMetadata canon bd))
        + (pytreeMetadata canon bd l).event_size
        = totalEventSize ((pre ++ [l]).map (pytreeMetadata canon bd)) := by
      simp [totalEventSize, pytreeMetadata, List.map_append,
        List.sum_append]
    rw [hidx', ih (pre ++ [l]) (by simp)]

/-! ### Round trip at the `ravel_list` level (non-empty leaf list) -/

theorem ravelListFlat_cons_eq (canon : ℕ → ℕ) (bd : ℕ)
    (batchShape : List ℕ) (l : Tensor) (rest : List Tensor)
    (hb0 : l.shape.take bd = batchShape) :
    ravelListFlat canon bd (l :: rest)
      = Tensor.mk
          (batchShape
            ++ [totalEventSize ((l :: rest).map (pytreeMetadata canon bd))])
          0
          (concatBlocks batchShape.prod
            ((l :: rest).map (pytreeMetadata canon bd))) := by
  simp only [ravelListFlat]
  rw [hb0]

theorem unravelListBatched_ravel (canon : ℕ → ℕ) (bd : ℕ)
    (batchShape : List ℕ) (l : Tensor) (rest : List Tensor)
    (hbs : batchShape.length = bd)
    (hwf : ∀ t ∈ l :: rest, t.data.length = t.shape.prod)
    (hbatch : ∀ t ∈ l :: rest, t.shape.take bd = batchShape)
    (hcanon : ∀ t ∈ l :: rest, canon t.dtype = t.dtype) :
    unravelListBatched bd ((l :: rest).map (pytreeMetadata canon bd))
        (ravelListFlat canon bd (l :: rest))
      = Except.ok (l :: rest) := by
  have hb0 : l.shape.take bd = batchShape := hbatch l (List.mem_cons_self l rest)
  have htake : (batchShape
      ++ [totalEventSize ((l :: rest).map (pytreeMetadata canon bd))]).take bd
      = batchShape := by
    rw [List.take_append_of_le_length (le_of_eq hbs.symm), ← hbs,
      List.take_length]
  have hgd : (batchShape
      ++ [totalEventSize ((l :: rest).map (pytreeMetadata canon bd))]).getD bd 0
      = totalEventSize ((l :: rest).map (pytreeMetadata canon bd)) := by
    rw [← hbs]
    exact getD_concat_length _ _
  rw [ravelListFlat_cons_eq canon bd batchShape l rest hb0]
  simp only [unravelListBatched]
  rw [htake, hgd]
  exact unravelBatchedFrom_ok canon bd batchShape (l :: rest) hwf hbatch
    hcanon (l :: rest) [] rfl

theorem unravelList_ravel_row (canon : ℕ → ℕ) (bd : ℕ)
    (batchShape : List ℕ) (l : Tensor) (rest : List Tensor)
    (hwf : ∀ t ∈ l :: rest, t.data.length = t.shape.prod)
    (hbatch : ∀ t ∈ l :: rest, t.shape.take bd = batchShape)
    (hcanon : ∀ t ∈ l :: rest, canon t.dtype = t.dtype)
    (b : ℕ) (hb : b < batchShape.prod) :
    unravelList bd ((l :: rest).map (pytreeMetadata canon bd))
        (slice (b * totalEventSize ((l :: rest).map (pytreeMetadata canon bd)))
          (totalEventSize ((l :: rest).map (pytreeMetadata canon bd)))
          (ravelListFlat canon bd (l :: rest)).data)
      = Except.ok ((l :: rest).map (Tensor.batchSlice bd b)) := by
  have hb0 : l.shape.take bd = batchShape := hbatch l (List.mem_cons_self l rest)
  have hdata : (ravelListFlat canon bd (l :: rest)).data
      = concatBlocks batchShape.prod
          ((l :: rest).map (pytreeMetadata canon bd)) := by
    rw [ravelListFlat_cons_eq canon bd batchShape l rest hb0]
  rw [hdata, row_extract canon bd batchShape (l :: rest) hwf hbatch b hb]
  exact unravelFrom_ok canon bd batchShape (l :: rest) hwf hbatch hcanon
    b hb (l :: rest) [] rfl

/-- C5: for any named collection of tensors and any valid `batch_dims`
(all leaves share the leading `batchShape`, hold as many entries as their
shape prescribes, and — being jax arrays — carry canonical dtypes),
unravelling the flat vector produced by `ravel_pytree` reproduces the
collection exactly, values, shapes and dtypes included: the batched
variant recovers the whole collection, and the single variant applied to
any batch row `b` of the flat matrix recovers the collection's slice at
batch index `b` with batch axes stripped; raveling a collection with zero
leaves yields a zero-length vector. -/
theorem ravel_pytree_roundtrip (canon : ℕ → ℕ) (bd : ℕ)
    (batchShape : List ℕ) (pt : List (String × Tensor))
    (hbs : batchShape.length = bd)
    (hwf : ∀ p ∈ pt, (p.2).data.length = (p.2).shape.prod)
    (hbatch : ∀ p ∈ pt, (p.2).shape.take bd = batchShape)
    (hcanon : ∀ p ∈ pt, canon (p.2).dtype = (p.2).dtype) :
    unravelPytreeBatched canon bd pt (ravelPytreeFlat canon bd pt)
        = Except.ok pt
      ∧ (∀ b, b < batchShape.prod →
          unravelPytree canon bd pt
              (slice
                (b * totalEventSize
                  ((pt.map Prod.snd).map (pytreeMetadata canon bd)))
                (totalEventSize
                  ((pt.map Prod.snd).map (pytreeMetadata canon bd)))
                (ravelPytreeFlat canon bd pt).data)
            = Except.ok (pt.map (fun p => (p.1, p.2.batchSlice bd b))))
      ∧ (pt = [] → (ravelPytreeFlat canon bd pt).data = []) := by
  cases pt with
  | nil => exact ⟨rfl, fun b hb => rfl, fun _ => rfl⟩
  | cons p0 pt' =>
    have hwf' : ∀ t ∈ p0.2 :: pt'.map Prod.snd,
        t.data.length = t.shape.prod := by
      intro t ht
      rcases List.mem_cons.mp ht with h | h
      · subst h; exact hwf p0 (List.mem_cons_self _ _)
      · rcases List.mem_map.mp h with ⟨p, hp, rfl⟩
        exact hwf p (List.mem_cons_of_mem _ hp)
    have hbatch' : ∀ t ∈ p0.2 :: pt'.map Prod.snd,
        t.shape.take bd = batchShape := by
      intro t ht
      rcases List.mem_cons.mp ht with h | h
      · subst h; exact hbatch p0 (List.mem_cons_self _ _)
      · rcases List.mem_map.mp h with ⟨p, hp, rfl⟩
        exact hbatch p (List.mem_cons_of_mem _ hp)
    have hcanon' : ∀ t ∈ p0.2 :: pt'.map Prod.snd,
        canon t.dtype = t.dtype := by
      intro t ht
      rcases List.mem_cons.mp ht with h | h
      · subst h; exact hcanon p0 (List.mem_cons_self _ _)
      · rcases List.mem_map.mp h with ⟨p, hp, rfl⟩
        exact hcanon p (List.mem_cons_of_mem _ hp)
    refine ⟨?_, ?_, ?_⟩
    · unfold unravelPytreeBatched
      rw [show (List.map Prod.snd (p0 :: pt')) = p0.2 :: pt'.map Prod.snd
            from rfl,
          show ravelPytreeFlat canon bd (p0 :: pt')
            = ravelListFlat canon bd (p0.2 :: pt'.map Prod.snd) from rfl,
          unravelListBatched_ravel canon bd batchShape p0.2
            (pt'.map Prod.snd) hbs hwf' hbatch' hcanon']
      show Except.ok ((List.map Prod.fst (p0 :: pt')).zip
        (p0.2 :: pt'.map Prod.snd)) = _
      rw [show p0.2 :: pt'.map Prod.snd = (p0 :: pt').map Prod.snd from rfl,
        zip_fst_map]
      simp
    · intro b hb
      unfold unravelPytree
      rw [show (List.map Prod.snd (p0 :: pt')) = p0.2 :: pt'.map Prod.snd
            from rfl,
          show ravelPytreeFlat canon bd (p0 :: pt')
            = ravelListFlat canon bd (p0.2 :: pt'.map Prod.snd) from rfl,
          unravelList_ravel_row canon bd batchShape p0.2
            (pt'.map Prod.snd) hwf' hbatch' hcanon' b hb]
      show Except.ok ((List.map Prod.fst (p0 :: pt')).zip
        ((p0.2 :: pt'.map Prod.snd).map (Tensor.batchSlice bd b))) = _
      rw [show p0.2 :: pt'.map Prod.snd = (p0 :: pt').map Prod.snd from rfl,
        List.map_map, zip_fst_map]
      rfl
    · intro h
      exact absurd h (by simp)

/-- A concrete two-leaf named collection with one batch axis (two
particles): leaf `a` of shape `[2, 2]`, leaf `b` of shape `[2, 1]`. -/
def wpt : List (String × Tensor) :=
  [("a", Tensor.mk [2, 2] 7 [1, 2, 3, 4]), ("b", Tensor.mk [2, 1] 3 [5, 6])]

/-- Witness for C5 at the concrete collection `wpt` with `batch_dims = 1`. -/
theorem ravel_pytree_roundtrip_witness :
    (([2] : List ℕ).length = 1
      ∧ (∀ p ∈ wpt, (p.2).data.length = (p.2).shape.prod)
      ∧ (∀ p ∈ wpt, (p.2).shape.take 1 = [2])
      ∧ (∀ p ∈ wpt, id (p.2).dtype = (p.2).dtype))
      ∧ (unravelPytreeBatched id 1 wpt (ravelPytreeFlat id 1 wpt)
          = Except.ok wpt
        ∧ (∀ b, b < ([2] : List ℕ).prod →
            unravelPytree id 1 wpt
                (slice
                  (b * totalEventSize
                    ((wpt.map Prod.snd).map (pytreeMetadata id 1)))
                  (totalEventSize
                    ((wpt.map Prod.snd).map (pytreeMetadata id 1)))
                  (ravelPytreeFlat id 1 wpt).data)
              = Except.ok (wpt.map (fun p => (p.1, p.2.batchSlice 1 b))))
        ∧ (wpt = [] → (ravelPytreeFlat id 1 wpt).data = [])) :=
  ⟨⟨rfl, by decide, by decide, by decide⟩,
    ravel_pytree_roundtrip id 1 [2] wpt rfl (by decide) (by decide)
      (by decide)⟩

/-- C7 counterexample: a recorded single leaf of shape `[3]` (total
flattened size 3) unravelled from an array of length 5 — a size mismatch
— does not raise: `unravel_list` silently slices off the first three
entries and succeeds. -/
theorem unravel_silently_truncates :
    unravelList 0 ([Tensor.mk [3] 0 [1, 2, 3]].map (pytreeMetadata id 0))
        [1, 2, 3, 4, 5]
      = Except.ok [Tensor.mk [3] 0 [1, 2, 3]]
      ∧ ([1, 2, 3, 4, 5] : List ℚ).length
        ≠ totalEventSize
            ([Tensor.mk [3] 0 [1, 2, 3]].map (pytreeMetadata id 0)) :=
  ⟨rfl, by decide⟩

/-- Error characterization of `unravel_list` from offset `idx` on: it
raises exactly when some remaining leaf's recorded event size exceeds the
input array's length (the `lax.dynamic_slice_in_dim` size check); any
other size discrepancy is absorbed by jax's start-index clamping. -/
theorem unravelListFrom_error_iff (canon : ℕ → ℕ) (bd : ℕ)
    (arr : List ℚ) :
    ∀ (leaves : List Tensor) (idx : ℕ),
      (isErr (unravelListFrom bd arr idx
          (leaves.map (pytreeMetadata canon bd))) = true
        ↔ ∃ l ∈ leaves, arr.length < (l.shape.drop bd).prod) := by
  intro leaves
  induction leaves with
  | nil => intro idx; simp [unravelListFrom, isErr]
  | cons l rest ih =>
    intro idx
    by_cases hl : (l.shape.drop bd).prod ≤ arr.length
    · have hdyn : dynamicSliceInDim0 arr idx
          (pytreeMetadata canon bd l).event_size
          = Except.ok (slice
              (min idx (arr.length - (l.shape.drop bd).prod))
              ((l.shape.drop bd).prod) arr) := by
        show dynamicSliceInDim0 arr idx ((l.shape.drop bd).prod) = _
        unfold dynamicSliceInDim0
        rw [if_pos hl]
      have hslen : (slice (min idx (arr.length - (l.shape.drop bd).prod))
          ((l.shape.drop bd).prod) arr).length
          = (l.shape.drop bd).prod := by
        rw [slice_length]
        omega
      have hres : reshapeAstype ((pytreeMetadata canon bd l).shape.drop bd)
          (pytreeMetadata canon bd l).dtype
          (slice (min idx (arr.length - (l.shape.drop bd).prod))
            ((l.shape.drop bd).prod) arr)
          = Except.ok (Tensor.mk (l.shape.drop bd) (canon l.dtype)
              (slice (min idx (arr.length - (l.shape.drop bd).prod))
                ((l.shape.drop bd).prod) arr)) := by
        show reshapeAstype (l.shape.drop bd) _ _ = _
        unfold reshapeAstype
        rw [if_pos hslen]
        rfl
      rw [List.map_cons, unravelListFrom_cons bd arr idx _ _ _ _ hdyn hres]
      cases hrec : unravelListFrom bd arr
          (idx + (pytreeMetadata canon bd l).event_size)
          (rest.map (pytreeMetadata canon bd)) with
      | error e =>
        have hih := ih (idx + (pytreeMetadata canon bd l).event_size)
        rw [hrec] at hih
        simp only [isErr, eq_self_iff_true, true_iff] at hih
        rcases hih with ⟨l', hl', hlt⟩
        simp only [isErr, eq_self_iff_true, true_iff]
        exact ⟨l', List.mem_cons_of_mem _ hl', hlt⟩
      | ok ts =>
        have hih := ih (idx + (pytreeMetadata canon bd l).event_size)
        rw [hrec] at hih
        simp only [isErr, Bool.false_eq_true, false_iff] at hih
        simp only [isErr, Bool.false_eq_true, false_iff]
        rintro ⟨l', hl', hlt⟩
        rcases List.mem_cons.mp hl' with h | h
        · subst h; omega
        · exact hih ⟨l', h, hlt⟩
    · have hdyn : dynamicSliceInDim0 arr idx
          (pytreeMetadata canon bd l).event_size
          = Except.error
              "Slice size must be less than or equal to operand size" := by
        show dynamicSliceInDim0 arr idx ((l.shape.drop bd).prod) = _
        unfold dynamicSliceInDim0
        rw [if_neg hl]
      have hstep : unravelListFrom bd arr idx
          ((l :: rest).map (pytreeMetadata canon bd))
          = Except.error
              "Slice size must be less than or equal to operand size" := by
        simp only [List.map_cons, unravelListFrom, hdyn]
      rw [hstep]
      simp only [isErr, true_iff, eq_self_iff_true]
      exact ⟨l, List.mem_cons_self _ _, by omega⟩

/-- C7 amended: an unravel function produced by `ravel_pytree` raises
exactly when some recorded leaf's flattened event size exceeds the input
array's length along the sliced axis (so in particular when the array is
shorter than the recorded total); an input whose size merely differs —
e.g. a longer array — is silently sliced with jax's clamped offsets
rather than raising. -/
theorem unravelList_error_iff (canon : ℕ → ℕ) (bd : ℕ)
    (leaves : List Tensor) (arr : List ℚ) :
    isErr (unravelList bd (leaves.map (pytreeMetadata canon bd)) arr) = true
      ↔ ∃ l ∈ leaves, arr.length < (l.shape.drop bd).prod :=
  unravelListFrom_error_iff canon bd arr leaves 0

end Stein
